import Mathlib

/-!
# Verification of the civics_cdf_validator rule engine (`base.py`)

A shallow embedding of the rule dispatch and severity-aggregation engine of
`civics_cdf_validator/base.py`, together with theorems settling the spec's
claims about it.

Conventions of the embedding:
* Python dictionaries become association lists (`alistGet?`, `alistSet`,
  `alistModify`) with first-key-wins lookup and insertion-order preservation,
  matching CPython dict semantics.
* The `loggers` module is not part of the source under verification; per the
  spec, every validation failure belongs to exactly one of the three ordered
  severities (or to none, for a bare base-class exception), and carries an
  `error_log` list that may be empty.  We model an exception as a record with
  an optional severity tag, a message, and an error log.
* A rule's `check` body is arbitrary code; we model its observable behaviour
  as an oracle mapping the rule instance (and the element, for element rules)
  to `none` (normal return) or `some e` (a raised validation failure), which
  is the rule contract the dispatcher relies on.
-/

namespace CdfValidator

/-- Severity classes of validation failures: `loggers.ElectionInfo`,
`loggers.ElectionWarning`, `loggers.ElectionError` (ordered, disjoint). -/
inductive Severity : Type
  | info : Severity
  | warning : Severity
  | error : Severity
deriving DecidableEq, Repr

/-- An entry of an exception's `error_log`: a source line (possibly unknown)
and a message.  Modelled from the spec: `loggers.ErrorLogEntry` is a
(source-line-number-or-absent, message) pair. -/
structure ErrorLogEntry : Type where
  line : Option Nat
  message : String
deriving DecidableEq, Repr

/-- Modelled from the spec: a `loggers.ElectionException`.  Its `severity` is
`some s` when the exception is an instance of one of the three severity
subclasses and `none` for the bare base class (as raised by `set_option`);
`error_log` may be empty, in which case the exception's own text is the sole
message. -/
structure ElectionException : Type where
  severity : Option Severity
  message : String
  error_log : List ErrorLogEntry
deriving DecidableEq, Repr

/-! ## Association lists standing in for Python dicts -/

/-- Dict lookup: value at the first matching key, if any. -/
def alistGet? {α : Type} : List (String × α) → String → Option α
  | [], _ => none
  | (k, v) :: rest, key => if k = key then some v else alistGet? rest key

/-- Dict lookup with a default. -/
def alistGetD {α : Type} (l : List (String × α)) (key : String) (d : α) : α :=
  (alistGet? l key).getD d

/-- Dict assignment `d[key] = v`: overwrite in place if present, else append. -/
def alistSet {α : Type} : List (String × α) → String → α → List (String × α)
  | [], key, v => [(key, v)]
  | (k, w) :: rest, key, v =>
      if k = key then (key, v) :: rest else (k, w) :: alistSet rest key v

/-- Modify the value at an existing key (no-op when the key is absent; the
engine only calls it on keys it has just ensured exist). -/
def alistModify {α : Type} : List (String × α) → String → (α → α) → List (String × α)
  | [], _, _ => []
  | (k, w) :: rest, key, f =>
      if k = key then (k, f w) :: rest else (k, w) :: alistModify rest key f

/-! ## SchemaHandler.get_element_class -/

/-- A document element as the dispatcher sees it: a tag and an attribute
dict.  (Content such as children and text is irrelevant to dispatch.) -/
structure Element : Type where
  tag : String
  attrib : List (String × String)
deriving DecidableEq, Repr

/-- The constant `SchemaHandler._TYPE_ATTRIB`: the fully qualified `xsi:type` attribute. -/
def TYPE_ATTRIB : String :=
  "\x7bhttp://www.w3.org/2001/XMLSchema-instance\x7dtype"

/-- Embeds `SchemaHandler.get_element_class`: `None` for an absent element; the
`xsi:type` attribute value when present; otherwise the element's tag. -/
def get_element_class : Option Element → Option String
  | none => none
  | some element =>
      match alistGet? element.attrib TYPE_ATTRIB with
      | none => some element.tag
      | some v => some v

/-! ## BaseRule.set_option -/

/-- A commandline option object (`RuleOption`): a name/value pair. -/
structure RuleOption : Type where
  option_name : String
  option_value : String
deriving DecidableEq, Repr

/-- A rule instance's attribute dictionary (the target of `hasattr` /
`setattr` in `set_option`). -/
abbrev AttrList : Type := List (String × String)

/-- The exception `set_option` raises: a bare `loggers.ElectionException`
(not one of the three severity subclasses). -/
def invalidAttributeExc : ElectionException :=
  { severity := none, message := "Invalid attribute set", error_log := [] }

/-- Embeds `BaseRule.set_option`: raise `ElectionException("Invalid attribute set")`
when the instance has no attribute of the option's name (leaving the
attributes untouched), otherwise perform a plain attribute assignment.
Returns the (possibly updated) attributes paired with the raised exception,
if any. -/
def BaseRule.«set_option» (attrs : AttrList) (option : RuleOption) :
    AttrList × Option ElectionException :=
  if (alistGet? attrs option.option_name).isSome then
    (alistSet attrs option.option_name option.option_value, none)
  else
    (attrs, some invalidAttributeExc)

/-! ## Calendar dates and the `strptime("%Y-%m-%d")` model -/

/-- A Gregorian calendar date as `datetime.date` holds it. -/
structure Date : Type where
  year : Nat
  month : Nat
  day : Nat
deriving DecidableEq, Repr

/-- Gregorian leap-year rule. -/
def isLeapYear (y : Nat) : Bool :=
  y % 4 = 0 && (y % 100 ≠ 0 || y % 400 = 0)

/-- Number of days in month `m` of year `y`. -/
def daysInMonth (y m : Nat) : Nat :=
  if m = 2 then (if isLeapYear y then 29 else 28)
  else if m = 4 ∨ m = 6 ∨ m = 9 ∨ m = 11 then 30
  else 31

/-- Split a character list at every occurrence of a separator character
(what the literal hyphens of the `"%Y-%m-%d"` format induce). -/
def splitOnChar (sep : Char) : List Char → List (List Char)
  | [] => [[]]
  | c :: rest =>
      match splitOnChar sep rest with
      | [] => if c = sep then [[], []] else [[c]]
      | h :: t => if c = sep then [] :: h :: t else (c :: h) :: t

/-- Read a digit group as a number. -/
def digitsToNat (cs : List Char) : Nat :=
  cs.foldl (fun a c => a * 10 + (c.toNat - 48)) 0

/-- The `%Y` group of CPython's `_strptime` regex: exactly four digits. -/
def matchesYearPat (cs : List Char) : Bool :=
  cs.length = 4 && cs.all Char.isDigit

/-- The `%m` group of CPython's `_strptime` regex:
digit pairs `10`-`12` or `01`-`09`, or a single digit `1`-`9`. -/
def matchesMonthPat (cs : List Char) : Bool :=
  match cs with
  | ['1', c] => '0' ≤ c && c ≤ '2'
  | ['0', c] => '1' ≤ c && c ≤ '9'
  | [c] => '1' ≤ c && c ≤ '9'
  | _ => false

/-- The `%d` group of CPython's `_strptime` regex: `30`-`31`, `10`-`29`,
`01`-`09`, a single digit `1`-`9`, or a space-padded ` 1`-` 9`. -/
def matchesDayPat (cs : List Char) : Bool :=
  match cs with
  | ['3', c] => c = '0' || c = '1'
  | ['0', c] => '1' ≤ c && c ≤ '9'
  | [' ', c] => '1' ≤ c && c ≤ '9'
  | [a, b] => (a = '1' || a = '2') && b.isDigit
  | [c] => '1' ≤ c && c ≤ '9'
  | _ => false

/-- Models `datetime.datetime.strptime(s, "%Y-%m-%d").date()`: CPython
compiles the format to the anchored pattern
`\d\d\d\d` `-` `(1[0-2]|0[1-9]|[1-9])` `-` `(3[01]|[12]\d|0[1-9]|[1-9]| [1-9])`
with nothing left over (a partial match raises `ValueError: unconverted
data remains`); the captured numbers then pass through the `datetime`
constructor, which demands a year of at least `datetime.MINYEAR = 1` and a
day within the month's length.  Since neither a digit nor the padding
space can be a hyphen, the anchored match is equivalent to splitting on
hyphens into exactly three groups and matching each group whole.  Returns
`none` exactly when CPython raises `ValueError`. -/
def strptimeYmd (s : String) : Option Date :=
  match splitOnChar '-' s.toList with
  | [ys, ms, ds] =>
      if matchesYearPat ys && matchesMonthPat ms && matchesDayPat ds then
        let y := digitsToNat ys
        let m := digitsToNat ms
        let d := digitsToNat (ds.dropWhile (fun c => c = ' '))
        if 1 ≤ y ∧ d ≤ daysInMonth y m then
          some { year := y, month := m, day := d }
        else none
      else none
  | _ => none

/-- Days strictly before January 1 of year `y` in the proleptic Gregorian
calendar (as in `datetime.date.toordinal`). -/
def daysBeforeYear (y : Nat) : Nat :=
  365 * (y - 1) + (y - 1) / 4 - (y - 1) / 100 + (y - 1) / 400

/-- Days of year `y` strictly before the first of month `m`. -/
def daysBeforeMonth (y m : Nat) : Nat :=
  ((List.range (m - 1)).map (fun i => daysInMonth y (i + 1))).sum

/-- Embeds `datetime.date.toordinal`: day count with 0001-01-01 as day 1. -/
def Date.toOrdinal (d : Date) : Nat :=
  daysBeforeYear d.year + daysBeforeMonth d.year d.month + d.day

/-- Computes `(a - b).days` for two `datetime.date` values. -/
def dateSubDays (a b : Date) : Int :=
  (a.toOrdinal : Int) - (b.toOrdinal : Int)

/-- Computes `str(d)` for a `datetime.date`: zero-padded ISO format. -/
def Date.toIso (d : Date) : String :=
  let zpad := fun (w n : Nat) =>
    let s := toString n
    String.mk (List.replicate (w - s.length) '0') ++ s
  zpad 4 d.year ++ "-" ++ zpad 2 d.month ++ "-" ++ zpad 2 d.day

/-! ## DateRule -/

/-- A `StartDate`/`EndDate` child element as `gather_dates` reads it: its
source line and its text. -/
structure DateField : Type where
  sourceline : Option Nat
  text : String
deriving DecidableEq, Repr

/-- The parent element handed to `gather_dates`, reduced to the two children
`find` can locate. -/
structure DateElement : Type where
  startDate : Option DateField
  endDate : Option DateField
deriving DecidableEq, Repr

/-- The mutable instance state of a `DateRule` (today's date omitted: none of
the operations verified here reads it). -/
structure DateRuleState : Type where
  start_elem : Option DateField
  start_date : Option Date
  end_elem : Option DateField
  end_date : Option Date
  error_log : List ErrorLogEntry
deriving DecidableEq, Repr

/-- Embeds `DateRule.__init__` / `DateRule.reset_instance_vars`: everything absent,
empty log. -/
def DateRuleState.init : DateRuleState :=
  { start_elem := none, start_date := none, end_elem := none, end_date := none,
    error_log := [] }

/-- Embeds `DateRule.gather_dates`: record both child elements, parse each present
child's text as `%Y-%m-%d` (storing the date on success, appending a
malformed-date entry keyed by the child's source line to a local log on
failure), then raise an `ElectionError` carrying the local log when it is
nonempty.  Returns the updated instance state (the assignments happen before
any raise) and the raised exception, if any. -/
def DateRule.gather_dates (st : DateRuleState) (element : DateElement) :
    DateRuleState × Option ElectionException :=
  let st1 := { st with start_elem := element.startDate }
  let (st2, log1) :=
    match element.startDate with
    | none => (st1, ([] : List ErrorLogEntry))
    | some f =>
        match strptimeYmd f.text with
        | some d => ({ st1 with start_date := some d }, [])
        | none =>
            (st1, [{ line := f.sourceline,
                     message := "The StartDate text should be of the format yyyy-mm-dd" }])
  let st3 := { st2 with end_elem := element.endDate }
  let (st4, log2) :=
    match element.endDate with
    | none => (st3, ([] : List ErrorLogEntry))
    | some f =>
        match strptimeYmd f.text with
        | some d => ({ st3 with end_date := some d }, [])
        | none =>
            (st3, [{ line := f.sourceline,
                     message := "The EndDate text should be of the format yyyy-mm-dd" }])
  let error_log := log1 ++ log2
  if error_log.isEmpty then (st4, none)
  else
    (st4, some { severity := some Severity.error,
                 message := "The format for the election dates are invalid: ",
                 error_log := error_log })

/-- The ordering message of `check_end_after_start` (a triple-quoted Python
literal: it embeds a newline and the continuation line's indentation). -/
def endAfterStartMessage (startDate endDate : Date) : String :=
  "The dates (start: " ++ startDate.toIso ++ ", end: " ++ endDate.toIso ++
    ") are invalid.\n      The end date must be the same or after the start date."

/-- Embeds `DateRule.check_end_after_start`: computes
`(self.end_date - self.start_date).days` — a `TypeError` (modelled as `none`)
when either stored date is absent — and appends one ordering entry, keyed by
the end element's source line, when the difference is negative (reading
`self.end_elem.sourceline` then, an `AttributeError` — `none` — if the end
element is absent). -/
def DateRule.check_end_after_start (st : DateRuleState) : Option DateRuleState :=
  match st.end_date, st.start_date with
  | some e, some s =>
      let start_end_delta := dateSubDays e s
      if start_end_delta < 0 then
        match st.end_elem with
        | none => none
        | some f =>
            some { st with error_log :=
              st.error_log ++ [{ line := f.sourceline,
                                 message := endAfterStartMessage s e }] }
      else some st
  | _, _ => none

/-! ## ValidReferenceRule -/

/-- Embeds `ValidReferenceRule.check`: with the reference and defined identifier
sets (Python sets, embedded as duplicate-free-in-spirit lists), compute the
difference `reference_ids - defined_ids` and raise an `ElectionError`
naming its elements comma-joined when it is nonempty; return normally
otherwise. -/
def ValidReferenceRule.check (missing_element : String)
    (reference_ids defined_ids : List String) : Option ElectionException :=
  let invalid_references := reference_ids.filter (fun v => !defined_ids.contains v)
  if invalid_references.isEmpty then none
  else
    some { severity := some Severity.error,
           message := "No defined " ++ missing_element ++ " for " ++
             String.intercalate ", " invalid_references ++ " found in the feed.",
           error_log := [] }

/-! ## RulesRegistry: aggregate state and exception_handler -/

/-- A rule-class name (`rule.__class__` / `rule.__name__`, identified by the
class's name). -/
abbrev ClassName : Type := String

/-- A total map over the three severities, standing in for the dicts the
registry initializes with one entry per severity class in `_SEVERITIES`. -/
structure SevMap (α : Type) : Type where
  info : α
  warning : α
  error : α
deriving DecidableEq, Repr

/-- Read the entry of one severity. -/
def SevMap.get {α : Type} (m : SevMap α) : Severity → α
  | Severity.info => m.info
  | Severity.warning => m.warning
  | Severity.error => m.error

/-- Replace the entry of one severity. -/
def SevMap.set {α : Type} (m : SevMap α) : Severity → α → SevMap α
  | Severity.info, v => { m with info := v }
  | Severity.warning, v => { m with warning := v }
  | Severity.error, v => { m with error := v }

/-- The same value at every severity. -/
def SevMap.const {α : Type} (v : α) : SevMap α := { info := v, warning := v, error := v }

/-- The aggregate counters a `RulesRegistry` owns for one run:
`self.exceptions`, `self.exception_counts`, `self.exception_rule_counts`,
`self.total_count`. -/
structure AggState : Type where
  exceptions : SevMap (List (ClassName × List ElectionException))
  exception_counts : SevMap Nat
  exception_rule_counts : SevMap (List (ClassName × Nat))
  total_count : Nat
deriving DecidableEq, Repr

/-- Embeds `RulesRegistry.__init__`: empty dicts, zero counts. -/
def AggState.init : AggState :=
  { exceptions := SevMap.const [], exception_counts := SevMap.const 0,
    exception_rule_counts := SevMap.const [], total_count := 0 }

/-- The `error_count` value as `exception_handler` computes it: the number of entries
of the exception's error log, or one when the log is empty. -/
def errorCount (e : ElectionException) : Nat :=
  if e.error_log.isEmpty then 1 else e.error_log.length

/-- Embeds `RulesRegistry.exception_handler`: find the severity class the exception
is an instance of (none for a bare base-class exception); create that
severity's bucket and counter for the rule's class if missing; append the
exception and add `error_count` to the per-severity count, the
per-(severity, class) count and the grand total. -/
def RulesRegistry.exception_handler (cls : ClassName) (e : ElectionException)
    (s : AggState) : AggState :=
  match e.severity with
  | none => s
  | some sev =>
      let excs0 := s.exceptions.get sev
      let rcs0 := s.exception_rule_counts.get sev
      let excs1 := if (alistGet? excs0 cls).isSome then excs0 else excs0 ++ [(cls, [])]
      let rcs1 := if (alistGet? excs0 cls).isSome then rcs0 else rcs0 ++ [(cls, 0)]
      let error_count := errorCount e
      { exceptions := s.exceptions.set sev (alistModify excs1 cls (fun l => l ++ [e])),
        exception_counts :=
          s.exception_counts.set sev (s.exception_counts.get sev + error_count),
        exception_rule_counts :=
          s.exception_rule_counts.set sev (alistModify rcs1 cls (fun n => n + error_count)),
        total_count := s.total_count + error_count }

/-! ## RulesRegistry: registration -/

/-- A rule class from `rule_classes_to_check`: its name, the attribute dict a
fresh instance starts with, and the dispatch keys its `elements()` declares
(`["tree"]` for a whole-tree rule). -/
structure RuleClass : Type where
  name : ClassName
  initAttrs : AttrList
  elementKeys : List String
deriving DecidableEq, Repr

/-- A registered rule instance: its class name, its (possibly configured)
attributes and its dispatch keys.  `setup()` is the contract's no-op default
and leaves the instance unchanged. -/
structure RuleInst : Type where
  className : ClassName
  attrs : AttrList
  elementKeys : List String
deriving DecidableEq, Repr

/-- Embeds `rule(self.election_tree, self.schema_tree)`: instantiation. -/
def RuleClass.mkInstance (c : RuleClass) : RuleInst :=
  { className := c.name, attrs := c.initAttrs, elementKeys := c.elementKeys }

/-- Apply a list of options with `set_option`, left to right, stopping at the
first raised exception (which propagates out of `register_rules`). -/
def applyOptions : AttrList → List RuleOption → AttrList × Option ElectionException
  | attrs, [] => (attrs, none)
  | attrs, o :: rest =>
      match BaseRule.«set_option» attrs o with
      | (attrs1, none) => applyOptions attrs1 rest
      | (attrs1, some e) => (attrs1, some e)

/-- Instantiate one rule class and apply its configured options, if any
(`if rule.__name__ in self.rule_options.keys()`). -/
def configureInstance (rule_options : List (ClassName × List RuleOption))
    (c : RuleClass) : RuleInst × Option ElectionException :=
  let inst := c.mkInstance
  match alistGet? rule_options c.name with
  | none => (inst, none)
  | some options =>
      let (attrs1, err) := applyOptions inst.attrs options
      ({ inst with attrs := attrs1 }, err)

/-- The dispatch table `self.registry`: dispatch key to the ordered list of
rule instances registered under it. -/
abbrev Registry : Type := List (String × List RuleInst)

/-- Insert an instance under one key: append to the key's list if present,
else create the key. -/
def registryInsert (reg : Registry) (key : String) (r : RuleInst) : Registry :=
  if (alistGet? reg key).isSome then alistModify reg key (fun l => l ++ [r])
  else reg ++ [(key, [r])]

/-- Embeds `RulesRegistry.register_rules`: for each rule class in order,
instantiate it, apply matching options (a raised configuration exception
propagates at once, leaving the table as built so far), run the no-op
`setup()`, and insert the instance under each distinct key of its
`elements()` (`set(...)` deduplicates).  Returns the table built and the
escaped exception, if any. -/
def RulesRegistry.register_rules
    (rule_options : List (ClassName × List RuleOption)) :
    List RuleClass → Registry → Registry × Option ElectionException
  | [], reg => (reg, none)
  | c :: rest, reg =>
      match configureInstance rule_options c with
      | (_, some e) => (reg, some e)
      | (inst, none) =>
          let reg1 := inst.elementKeys.dedup.foldl
            (fun r key => registryInsert r key inst) reg
          RulesRegistry.register_rules rule_options rest reg1

/-! ## RulesRegistry.check_rules -/

/-- One invocation the dispatcher performs: a rule instance, paired with
`none` for the whole-tree call `rule.check()` and with `some element` for
the per-element call `element_rule.check(element)`. -/
abbrev Invocation : Type := RuleInst × Option Element

/-- All the inputs one `check_rules` run depends on: whether the two
`etree.parse` calls succeed, the configured rule classes and options, the
document elements in end-order traversal (`etree.iterwalk`), and the
observable behaviour of each rule's `check` — `none` for a normal return,
`some e` for a raised validation failure. -/
structure RunInput : Type where
  parse_ok : Bool
  rule_classes : List RuleClass
  rule_options : List (ClassName × List RuleOption)
  walk : List Element
  treeOutcome : RuleInst → Option ElectionException
  elemOutcome : RuleInst → Element → Option ElectionException

/-- What one `check_rules` run leaves behind: the aggregate counters, the
dispatch table, the sequence of rule invocations performed, and the
exception that escaped `check_rules` itself, if any. -/
structure RunResult : Type where
  state : AggState
  registry : Registry
  trace : List Invocation
  raised : Option ElectionException

/-- The parse-failure arm of `check_rules`: count one `ElectionError`
occurrence into the severity total and the grand total (the per-rule-class
dicts are left untouched) and return. -/
def parseFailureCount (s : AggState) : AggState :=
  { s with
    exception_counts :=
      s.exception_counts.set Severity.error
        (s.exception_counts.get Severity.error + 1),
    total_count := s.total_count + 1 }

/-- The whole-tree phase: invoke each rule of `self.registry.get("tree", [])`
in order, feeding any raised validation failure to `exception_handler`. -/
def runTreeRules (out : RuleInst → Option ElectionException) :
    List RuleInst → AggState → AggState × List Invocation
  | [], s => (s, [])
  | r :: rest, s =>
      let s1 := match out r with
        | none => s
        | some e => RulesRegistry.exception_handler r.className e s
      ((runTreeRules out rest s1).1,
        (r, (none : Option Element)) :: (runTreeRules out rest s1).2)

/-- Invoke every rule registered under one element's key on that element, in
order, capturing each failure independently. -/
def runRulesOnElement (out : RuleInst → Element → Option ElectionException)
    (element : Element) :
    List RuleInst → AggState → AggState × List Invocation
  | [], s => (s, [])
  | r :: rest, s =>
      let s1 := match out r element with
        | none => s
        | some e => RulesRegistry.exception_handler r.className e s
      ((runRulesOnElement out element rest s1).1,
        (r, some element) :: (runRulesOnElement out element rest s1).2)

/-- The element phase: for each traversed element, resolve its dispatch key
with `get_element_class`; skip it when the key is falsy or has no registry
entry; otherwise invoke every rule registered under the key. -/
def runWalk (out : RuleInst → Element → Option ElectionException)
    (reg : Registry) : List Element → AggState → AggState × List Invocation
  | [], s => (s, [])
  | element :: rest, s =>
      let step :=
        match get_element_class (some element) with
        | none => (s, ([] : List Invocation))
        | some tag =>
            if tag = "" then (s, [])
            else
              match alistGet? reg tag with
              | none => (s, [])
              | some rules => runRulesOnElement out element rules s
      ((runWalk out reg rest step.1).1, step.2 ++ (runWalk out reg rest step.1).2)

/-- Embeds `RulesRegistry.check_rules` on a fresh registry: a parse failure is
counted as one Error occurrence and ends the run with nothing registered and
nothing invoked; otherwise `register_rules` builds the table (a
configuration failure escapes before any check runs), the whole-tree rules
run once each, and one end-order traversal dispatches the element rules. -/
def RulesRegistry.check_rules (inp : RunInput) : RunResult :=
  if inp.parse_ok = false then
    { state := parseFailureCount AggState.init, registry := [], trace := [],
      raised := none }
  else
    match RulesRegistry.register_rules inp.rule_options inp.rule_classes [] with
    | (reg, some e) =>
        { state := AggState.init, registry := reg, trace := [], raised := some e }
    | (reg, none) =>
        let treeRules := (alistGet? reg "tree").getD []
        let treeRes := runTreeRules inp.treeOutcome treeRules AggState.init
        let walkRes := runWalk inp.elemOutcome reg inp.walk treeRes.1
        { state := walkRes.1, registry := reg, trace := treeRes.2 ++ walkRes.2,
          raised := none }

/-! ## RulesRegistry.print_exceptions -/

/-- The tuple `RulesRegistry._SEVERITIES`, in declaration order (least to most
severe). -/
def SEVERITIES : List Severity := [Severity.info, Severity.warning, Severity.error]

/-- The clean-run confirmation line. -/
def cleanRunMessage : String := "Validation completed with no warnings/errors."

/-- Modelled from the spec: each severity class's `description` attribute
used in report lines (the `loggers` module is outside the source under
verification). -/
def Severity.description : Severity → String
  | Severity.info => "Info"
  | Severity.warning => "Warning"
  | Severity.error => "Error"

/-- The normalization `print_exceptions` applies to its `severity` argument:
a falsy value (absent or zero) becomes 0 and a value above
`len(_SEVERITIES) = 3` is clamped to 2. -/
def printSeverityIndex : Option Nat → Nat
  | none => 0
  | some n => if n = 0 then 0 else if n > 3 then 2 else n

/-- Right-justify a number in a field of `w` characters, as Python's
`"{0:6d}".format` does. -/
def padLeftNum (w n : Nat) : String :=
  let s := toString n
  String.mk (List.replicate (w - s.length) ' ') ++ s

/-- The 14-space indent of verbose detail lines. -/
def indent14 : String := String.mk (List.replicate 14 ' ')

/-- The verbose detail lines for one (severity, rule-class) bucket: each
log-less failure prints as its own text; each log entry prints its message,
prefixed by its line number when known. -/
def verboseLines (excs : List ElectionException) : List String :=
  excs.flatMap (fun e =>
    if e.error_log.isEmpty then [indent14 ++ e.message]
    else
      e.error_log.map (fun err =>
        match err.line with
        | some l => indent14 ++ "Line " ++ toString l ++ ": " ++ err.message
        | none => indent14 ++ err.message))

/-- Stable insertion of a class before the first class of smaller-or-equal
count (so equal counts keep encounter order). -/
def insertByCountDesc (key : ClassName → Nat) (c : ClassName) :
    List ClassName → List ClassName
  | [] => [c]
  | x :: xs =>
      if key x ≤ key c then c :: x :: xs else x :: insertByCountDesc key c xs

/-- Python's `sorted(..., key=..., reverse=True)`: stable, descending by
key. -/
def sortByCountDesc (key : ClassName → Nat) (l : List ClassName) : List ClassName :=
  l.foldr (insertByCountDesc key) []

/-- Embeds `RulesRegistry.print_exceptions`, with its printed lines collected into
a list.  A zero grand total prints the clean-run line alone; otherwise, for
each severity at or above the normalized threshold, most severe first, a
nonzero severity prints its total line, then — per rule class, sorted by
descending count — the class's count line followed, when verbose, by the
class's individual messages. -/
def RulesRegistry.print_exceptions (s : AggState) (severity : Option Nat)
    (verbose : Bool) : List String :=
  let exception_types := SEVERITIES.drop (printSeverityIndex severity)
  if s.total_count = 0 then [cleanRunMessage]
  else
    exception_types.reverse.flatMap (fun e_type =>
      let count := s.exception_counts.get e_type
      if count = 0 then []
      else
        let suffix := if count > 1 then "s" else ""
        let header := padLeftNum 6 count ++ " " ++ e_type.description ++
          " message" ++ suffix ++ " found"
        let rcs := s.exception_rule_counts.get e_type
        let sortedClasses := sortByCountDesc (fun c => alistGetD rcs c 0)
          ((s.exceptions.get e_type).map Prod.fst)
        header :: sortedClasses.flatMap (fun rule_class =>
          let rule_count := alistGetD rcs rule_class 0
          let rule_suffix := if rule_count > 1 then "s" else ""
          let line := padLeftNum 10 rule_count ++ " " ++ rule_class ++ " " ++
            e_type.description ++ " message" ++ rule_suffix
          line :: (if verbose then
            verboseLines (alistGetD (s.exceptions.get e_type) rule_class [])
          else [])))

/-! ## Statement apparatus: sums, consistency, dispatch plans -/

/-- Sum of the per-class counts of one severity's dict. -/
def sumCounts (l : List (ClassName × Nat)) : Nat := (l.map Prod.snd).sum

/-- The sum over the three severities of the per-severity counts. -/
def sevCountsTotal (s : AggState) : Nat :=
  s.exception_counts.info + s.exception_counts.warning + s.exception_counts.error

/-- The sum over all (severity, rule-class) pairs of the per-pair counts. -/
def ruleCountsTotal (s : AggState) : Nat :=
  sumCounts s.exception_rule_counts.info + sumCounts s.exception_rule_counts.warning +
    sumCounts s.exception_rule_counts.error

/-- Each severity's exception buckets and per-class counters hold the same
rule classes (the two dicts are created in lockstep by
`exception_handler`). -/
def KeysAligned (s : AggState) : Prop :=
  ∀ (sev : Severity) (cls : ClassName),
    (alistGet? (s.exceptions.get sev) cls).isSome =
      (alistGet? (s.exception_rule_counts.get sev) cls).isSome

/-- The counter invariant: the grand total equals the sum of per-severity
counts and the sum of per-(severity, rule-class) counts, and the two dicts
are key-aligned. -/
def CountsConsistent (s : AggState) : Prop :=
  s.total_count = sevCountsTotal s ∧ s.total_count = ruleCountsTotal s ∧ KeysAligned s

/-- The invocations the element phase performs for one traversed element:
none when its resolved key is falsy or unregistered, otherwise one
invocation per rule registered under the key, in order. -/
def elementPlan (reg : Registry) (element : Element) : List Invocation :=
  match get_element_class (some element) with
  | none => []
  | some tag =>
      if tag = "" then []
      else
        match alistGet? reg tag with
        | none => []
        | some rules => rules.map (fun r => (r, some element))

/-- The full invocation sequence of a run that reaches the check phases:
every rule under the tree key once, in order, then the element-phase
invocations in traversal order.  Note it depends only on the dispatch table
and the traversal, never on any rule's outcome. -/
def dispatchPlan (reg : Registry) (walk : List Element) : List Invocation :=
  ((alistGet? reg "tree").getD []).map (fun r => (r, (none : Option Element))) ++
    walk.flatMap (fun element => elementPlan reg element)

/-- The malformed-StartDate message of `gather_dates`. -/
def startDateFormatMessage : String :=
  "The StartDate text should be of the format yyyy-mm-dd"

/-- The malformed-EndDate message of `gather_dates`. -/
def endDateFormatMessage : String :=
  "The EndDate text should be of the format yyyy-mm-dd"

/-- The local error log `gather_dates` accumulates for one element: one
malformed-date entry, keyed by the child's source line, per present child
whose text fails to parse. -/
def gatherLog (element : DateElement) : List ErrorLogEntry :=
  (match element.startDate with
   | none => []
   | some f =>
       if (strptimeYmd f.text).isSome then []
       else [{ line := f.sourceline, message := startDateFormatMessage }]) ++
  (match element.endDate with
   | none => []
   | some f =>
       if (strptimeYmd f.text).isSome then []
       else [{ line := f.sourceline, message := endDateFormatMessage }])

/-! ## Concrete inputs used by witnesses and counterexamples -/

/-- A run whose document parse fails; no rules, no elements. -/
def parseFailInput : RunInput :=
  { parse_ok := false, rule_classes := [], rule_options := [], walk := [],
    treeOutcome := fun _ => none, elemOutcome := fun _ _ => none }

/-- A whole-tree rule class. -/
def treeRuleClass : RuleClass :=
  { name := "TreeCheckRule", initAttrs := [], elementKeys := ["tree"] }

/-- An element rule class registered under the `Person` key. -/
def personRuleClass : RuleClass :=
  { name := "PersonRule", initAttrs := [], elementKeys := ["Person"] }

/-- A `Person` document element. -/
def personElement : Element := { tag := "Person", attrib := [] }

/-- An Error-severity validation failure with an empty log. -/
def sampleError : ElectionException :=
  { severity := some Severity.error, message := "tree violation", error_log := [] }

/-- An Info-severity validation failure with an empty log. -/
def sampleInfo : ElectionException :=
  { severity := some Severity.info, message := "minor note", error_log := [] }

/-- A run in which the whole-tree rule raises an Error but the Person
element rule must still fire on the one Person element. -/
def treeFailInput : RunInput :=
  { parse_ok := true, rule_classes := [treeRuleClass, personRuleClass],
    rule_options := [], walk := [personElement],
    treeOutcome := fun r => if r.className = "TreeCheckRule" then some sampleError else none,
    elemOutcome := fun _ _ => none }

/-- A run whose only failure is one Info-severity exception from the
whole-tree rule. -/
def infoOnlyInput : RunInput :=
  { parse_ok := true, rule_classes := [treeRuleClass], rule_options := [],
    walk := [],
    treeOutcome := fun _ => some sampleInfo, elemOutcome := fun _ _ => none }

/-- A rule class whose configuration options name a nonexistent attribute. -/
def badOptionRuleClass : RuleClass :=
  { name := "BadOptionRule", initAttrs := [], elementKeys := ["tree"] }

/-- Options naming an attribute `BadOptionRule` does not declare. -/
def badOptions : List (ClassName × List RuleOption) :=
  [("BadOptionRule", [{ option_name := "no_such_attribute", option_value := "1" }])]

/-- A run in which the first rule class fails configuration and a second,
well-formed rule class follows it. -/
def configFailInput : RunInput :=
  { parse_ok := true, rule_classes := [badOptionRuleClass, personRuleClass],
    rule_options := badOptions, walk := [personElement],
    treeOutcome := fun _ => none, elemOutcome := fun _ _ => none }

/-- A `StartDate` child with the spec's malformed example text. -/
def malformedStartElement : DateElement :=
  { startDate := some { sourceline := some 12, text := "2024-02-30" },
    endDate := none }

/-- The date 2024-02-01. -/
def feb1 : Date := { year := 2024, month := 2, day := 1 }

/-- The date 2024-01-01. -/
def jan1 : Date := { year := 2024, month := 1, day := 1 }

/-- The `EndDate` element of the witness state below. -/
def jan1Field : DateField := { sourceline := some 4, text := "2024-01-01" }

/-- A date-rule state holding `start: 2024-02-01`, `end: 2024-01-01`. -/
def endBeforeStartState : DateRuleState :=
  { start_elem := some { sourceline := some 3, text := "2024-02-01" },
    start_date := some feb1,
    end_elem := some jan1Field,
    end_date := some jan1,
    error_log := [] }

/-! ## Helper lemmas -/

theorem alistGet?_nil {α : Type} (key : String) : alistGet? ([] : List (String × α)) key = none := rfl

theorem alistGet?_cons {α : Type} (k : String) (v : α) (rest : List (String × α)) (key : String) :
    alistGet? ((k, v) :: rest) key = if k = key then some v else alistGet? rest key := rfl

theorem isSome_alistGet?_append_single {α : Type} (l : List (String × α)) (k c : String) (v : α) :
    (alistGet? (l ++ [(k, v)]) c).isSome =
      ((alistGet? l c).isSome || decide (k = c)) := by
  induction l with
  | nil => by_cases h : k = c <;> simp [alistGet?, h]
  | cons hd tl ih =>
      obtain ⟨k0, v0⟩ := hd
      by_cases h : k0 = c <;> simp [alistGet?, h, ih]

theorem isSome_alistGet?_alistModify {α : Type} (l : List (String × α)) (k c : String)
    (f : α → α) :
    (alistGet? (alistModify l k f) c).isSome = (alistGet? l c).isSome := by
  induction l with
  | nil => rfl
  | cons hd tl ih =>
      obtain ⟨k0, v0⟩ := hd
      by_cases hk : k0 = k
      · subst hk
        by_cases hc : k0 = c <;> simp [alistModify, alistGet?, hc]
      · by_cases hc : k0 = c
        · subst hc
          simp [alistModify, alistGet?, hk]
        · simp [alistModify, alistGet?, hk, hc, ih]

theorem sumCounts_nil : sumCounts [] = 0 := rfl

theorem sumCounts_append (l m : List (ClassName × Nat)) :
    sumCounts (l ++ m) = sumCounts l + sumCounts m := by
  simp [sumCounts]

theorem sumCounts_alistModify_add (l : List (ClassName × Nat)) (k : String) (n : Nat)
    (h : (alistGet? l k).isSome) :
    sumCounts (alistModify l k (fun x => x + n)) = sumCounts l + n := by
  induction l with
  | nil => simp [alistGet?] at h
  | cons hd tl ih =>
      obtain ⟨k0, v0⟩ := hd
      by_cases hk : k0 = k
      · simp [alistModify, hk, sumCounts]
        omega
      · simp only [alistGet?, hk, if_false] at h
        have hrec := ih h
        simp [alistModify, hk, sumCounts] at hrec ⊢
        omega

theorem SevMap.get_set {α : Type} (m : SevMap α) (sev sev' : Severity) (v : α) :
    (m.set sev v).get sev' = if sev' = sev then v else m.get sev' := by
  cases sev <;> cases sev' <;> simp [SevMap.set, SevMap.get]

theorem flatMap_eq_nil_of_forall {α β : Type} (l : List α) (f : α → List β)
    (h : ∀ x ∈ l, f x = []) : l.flatMap f = [] := by
  induction l with
  | nil => rfl
  | cons hd tl ih =>
      simp only [List.flatMap_cons, h hd (List.mem_cons_self hd tl), List.nil_append]
      exact ih (fun x hx => h x (List.mem_cons_of_mem hd hx))

/-! ## Claim C3 -/

/-- C3: `get_element_class` returns absent for an absent element; for an
element without the recognized type-override attribute it returns the
element's own tag name; and for an element carrying the attribute it
returns the attribute's value (never the tag). -/
theorem C3_get_element_class :
    get_element_class none = none ∧
    (∀ element : Element, alistGet? element.attrib TYPE_ATTRIB = none →
      get_element_class (some element) = some element.tag) ∧
    (∀ (element : Element) (v : String),
      alistGet? element.attrib TYPE_ATTRIB = some v →
      get_element_class (some element) = some v) := by
  refine ⟨rfl, ?_, ?_⟩
  · intro element h
    simp [get_element_class, h]
  · intro element v h
    simp [get_element_class, h]

/-- Witness for C3: a `Person` element with an override attribute resolves
to the override value `Candidate`; one without it resolves to its tag. -/
theorem C3_get_element_class_witness :
    get_element_class
      (some { tag := "Person", attrib := [(TYPE_ATTRIB, "Candidate")] }) =
        some "Candidate" ∧
    get_element_class (some { tag := "Person", attrib := [] }) = some "Person" :=
  ⟨C3_get_element_class.2.2 { tag := "Person", attrib := [(TYPE_ATTRIB, "Candidate")] }
      "Candidate" (by simp [alistGet?]),
   C3_get_element_class.2.1 { tag := "Person", attrib := [] } rfl⟩

/-! ## Claim C7 -/

/-- C7: `set_option` raises the configuration error exactly when the
instance lacks the named attribute, leaving the attributes unchanged in
that case, and otherwise performs a plain assignment of the option's value
to the attribute. -/
theorem C7_set_option (attrs : AttrList) (option : RuleOption) :
    ((BaseRule.set_option attrs option).2.isSome ↔
      alistGet? attrs option.option_name = none) ∧
    (alistGet? attrs option.option_name = none →
      BaseRule.set_option attrs option = (attrs, some invalidAttributeExc)) ∧
    (∀ v : String, alistGet? attrs option.option_name = some v →
      BaseRule.set_option attrs option =
        (alistSet attrs option.option_name option.option_value, none)) := by
  refine ⟨?_, ?_, ?_⟩
  · constructor
    · intro h
      by_cases hs : (alistGet? attrs option.option_name).isSome
      · simp [BaseRule.«set_option», hs] at h
      · simpa [Option.isSome_iff_exists, ← Option.ne_none_iff_exists'] using hs
    · intro h
      simp [BaseRule.«set_option», h]
  · intro h
    simp [BaseRule.«set_option», h]
  · intro v h
    simp [BaseRule.«set_option», h]

/-- Witness for C7: on an instance declaring only `threshold`, setting a
missing attribute fails and leaves the attributes unchanged, while setting
`threshold` reassigns it. -/
theorem C7_set_option_witness :
    alistGet? [("threshold", "1")] "no_such_attribute" = none ∧
    BaseRule.set_option [("threshold", "1")]
      { option_name := "no_such_attribute", option_value := "5" } =
      ([("threshold", "1")], some invalidAttributeExc) ∧
    BaseRule.set_option [("threshold", "1")]
      { option_name := "threshold", option_value := "5" } =
      ([("threshold", "5")], none) :=
  ⟨rfl,
   (C7_set_option [("threshold", "1")]
     { option_name := "no_such_attribute", option_value := "5" }).2.1 rfl,
   (C7_set_option [("threshold", "1")]
     { option_name := "threshold", option_value := "5" }).2.2 "1" rfl⟩

/-! ## Claim C6 -/

/-- C6: `ValidReferenceRule.check` returns normally exactly when every
referenced identifier is defined; otherwise it raises an `ElectionError`
whose message comma-joins a listing whose members are exactly the
identifiers referenced but not defined. -/
theorem C6_valid_reference_check (missing_element : String)
    (reference_ids defined_ids : List String) :
    (ValidReferenceRule.check missing_element reference_ids defined_ids = none ↔
      ∀ x ∈ reference_ids, x ∈ defined_ids) ∧
    ((∃ x ∈ reference_ids, x ∉ defined_ids) →
      ∃ l : List String,
        (∀ y : String, y ∈ l ↔ y ∈ reference_ids ∧ y ∉ defined_ids) ∧
        ValidReferenceRule.check missing_element reference_ids defined_ids =
          some { severity := some Severity.error,
                 message := "No defined " ++ missing_element ++ " for " ++
                   String.intercalate ", " l ++ " found in the feed.",
                 error_log := [] }) := by
  have hmem : ∀ y : String,
      y ∈ reference_ids.filter (fun v => !defined_ids.contains v) ↔
        y ∈ reference_ids ∧ y ∉ defined_ids := by
    intro y
    simp [List.mem_filter, List.elem_iff]
  by_cases h : (reference_ids.filter (fun v => !defined_ids.contains v)).isEmpty
  · have hall : ∀ x ∈ reference_ids, x ∈ defined_ids := by
      rw [List.isEmpty_iff] at h
      intro x hx
      by_contra hnd
      have hxf : x ∈ reference_ids.filter (fun v => !defined_ids.contains v) :=
        (hmem x).2 ⟨hx, hnd⟩
      rw [h] at hxf
      exact absurd hxf (List.not_mem_nil x)
    constructor
    · constructor
      · intro _
        exact hall
      · intro _
        simp [ValidReferenceRule.check, h]
        exact hall
    · intro ⟨x, hx, hnd⟩
      exact absurd (hall x hx) hnd
  · have hne : (reference_ids.filter (fun v => !defined_ids.contains v)).isEmpty = false := by
      simpa using h
    have hnil : reference_ids.filter (fun v => !defined_ids.contains v) ≠ [] := by
      intro hn
      rw [hn] at hne
      simp at hne
    obtain ⟨y, hy⟩ := List.exists_mem_of_ne_nil _ hnil
    obtain ⟨hy1, hy2⟩ := (hmem y).1 hy
    constructor
    · constructor
      · intro hc
        simp [ValidReferenceRule.check, hne] at hc
        exact hc
      · intro hall
        exact absurd (hall y hy1) hy2
    · intro _
      refine ⟨reference_ids.filter (fun v => !defined_ids.contains v), hmem, ?_⟩
      simp [ValidReferenceRule.check, hne]
      exact ⟨y, hy1, hy2⟩

/-- Witness for C6: referenced `p1, p2` against defined `p1` fails naming
exactly `p2`. -/
theorem C6_valid_reference_check_witness :
    (∃ x ∈ ["p1", "p2"], x ∉ ["p1"]) ∧
    ∃ l : List String,
      (∀ y : String, y ∈ l ↔ y ∈ ["p1", "p2"] ∧ y ∉ ["p1"]) ∧
      ValidReferenceRule.check "person" ["p1", "p2"] ["p1"] =
        some { severity := some Severity.error,
               message := "No defined " ++ "person" ++ " for " ++
                 String.intercalate ", " l ++ " found in the feed.",
               error_log := [] } :=
  ⟨⟨"p2", by decide⟩,
   (C6_valid_reference_check "person" ["p1", "p2"] ["p1"]).2 ⟨"p2", by decide⟩⟩

/-! ## Claim C9 -/

/-- C9: `gather_dates` records both child fields, stores for each present
and well-formed field its parsed date (absent when the field is absent or
malformed, starting from the reset state), accumulates one malformed-date
entry keyed by the field's source line per present field whose text fails
to parse, and raises an `ElectionError` carrying exactly that local log iff
it is nonempty. -/
theorem C9_gather_dates (element : DateElement) :
    (DateRule.gather_dates DateRuleState.init element).1.start_elem = element.startDate ∧
    (DateRule.gather_dates DateRuleState.init element).1.end_elem = element.endDate ∧
    (DateRule.gather_dates DateRuleState.init element).1.start_date =
      element.startDate.bind (fun f => strptimeYmd f.text) ∧
    (DateRule.gather_dates DateRuleState.init element).1.end_date =
      element.endDate.bind (fun f => strptimeYmd f.text) ∧
    (gatherLog element = [] →
      (DateRule.gather_dates DateRuleState.init element).2 = none) ∧
    (gatherLog element ≠ [] →
      (DateRule.gather_dates DateRuleState.init element).2 =
        some { severity := some Severity.error,
               message := "The format for the election dates are invalid: ",
               error_log := gatherLog element }) := by
  obtain ⟨sd, ed⟩ := element
  cases sd with
  | none =>
      cases ed with
      | none => simp [DateRule.gather_dates, DateRuleState.init, gatherLog]
      | some f =>
          cases hf : strptimeYmd f.text <;>
            simp [DateRule.gather_dates, DateRuleState.init, gatherLog, hf,
              startDateFormatMessage, endDateFormatMessage]
  | some f =>
      cases hf : strptimeYmd f.text with
      | none =>
          cases ed with
          | none =>
              simp [DateRule.gather_dates, DateRuleState.init, gatherLog, hf,
                startDateFormatMessage, endDateFormatMessage]
          | some g =>
              cases hg : strptimeYmd g.text <;>
                simp [DateRule.gather_dates, DateRuleState.init, gatherLog, hf, hg,
                  startDateFormatMessage, endDateFormatMessage]
      | some d =>
          cases ed with
          | none =>
              simp [DateRule.gather_dates, DateRuleState.init, gatherLog, hf,
                startDateFormatMessage, endDateFormatMessage]
          | some g =>
              cases hg : strptimeYmd g.text <;>
                simp [DateRule.gather_dates, DateRuleState.init, gatherLog, hf, hg,
                  startDateFormatMessage, endDateFormatMessage]

/-- Witness for C9: a StartDate text of `2024-02-30` (spec's example) is
malformed; `gather_dates` raises the validation error carrying the single
malformed-StartDate entry for line 12. -/
theorem C9_gather_dates_witness :
    gatherLog malformedStartElement ≠ [] ∧
    (DateRule.gather_dates DateRuleState.init malformedStartElement).2 =
      some { severity := some Severity.error,
             message := "The format for the election dates are invalid: ",
             error_log := [{ line := some 12, message := startDateFormatMessage }] } :=
  ⟨by decide, (C9_gather_dates malformedStartElement).2.2.2.2.2 (by decide)⟩

/-! ## Claim C10 -/

/-- C10: `check_end_after_start` crashes (modelled `none`) whenever either
stored date is absent; when both dates are stored (with the end element
recorded, as storing an end date entails) it is total, appending exactly
one ordering entry keyed by the end element's source line when the end
date is strictly before the start date and appending nothing otherwise. -/
theorem C10_check_end_after_start (st : DateRuleState) :
    ((st.start_date = none ∨ st.end_date = none) →
      DateRule.check_end_after_start st = none) ∧
    (∀ (s e : Date) (f : DateField),
      st.start_date = some s → st.end_date = some e → st.end_elem = some f →
      DateRule.check_end_after_start st =
        some { st with error_log :=
          if e.toOrdinal < s.toOrdinal then
            st.error_log ++ [{ line := f.sourceline,
                               message := endAfterStartMessage s e }]
          else st.error_log }) := by
  obtain ⟨se, sd, ee, ed, log⟩ := st
  constructor
  · intro h
    rcases h with h | h <;> simp only at h <;> subst h
    · cases ed <;> rfl
    · cases sd <;> rfl
  · intro s e f hs he hf
    simp only at hs he hf
    subst hs
    subst he
    subst hf
    by_cases hlt : e.toOrdinal < s.toOrdinal
    · have hd : dateSubDays e s < 0 := by
        unfold dateSubDays
        omega
      simp [DateRule.check_end_after_start, hd, hlt]
    · have hd : ¬dateSubDays e s < 0 := by
        unfold dateSubDays
        omega
      simp [DateRule.check_end_after_start, hd, hlt]

/-- Witness for C10: with start `2024-02-01` and end `2024-01-01` stored,
`check_end_after_start` appends exactly the one ordering entry keyed by the
end element's line 4. -/
theorem C10_check_end_after_start_witness :
    endBeforeStartState.start_date = some feb1 ∧
    endBeforeStartState.end_date = some jan1 ∧
    endBeforeStartState.end_elem = some jan1Field ∧
    DateRule.check_end_after_start endBeforeStartState =
      some { endBeforeStartState with error_log :=
        if jan1.toOrdinal < feb1.toOrdinal then
          endBeforeStartState.error_log ++
            [{ line := jan1Field.sourceline,
               message := endAfterStartMessage feb1 jan1 }]
        else endBeforeStartState.error_log } :=
  ⟨rfl, rfl, rfl,
   (C10_check_end_after_start endBeforeStartState).2 feb1 jan1 jan1Field rfl rfl rfl⟩

/-! ## Claim C4 -/

/-- C4: a parse failure ends `check_rules` with a grand total of exactly one
occurrence, counted at Error severity (no other severity counted), with no
rule registered and no rule invocation performed. -/
theorem C4_parse_failure (inp : RunInput) (h : inp.parse_ok = false) :
    (RulesRegistry.check_rules inp).state.total_count = 1 ∧
    (RulesRegistry.check_rules inp).state.exception_counts =
      { info := 0, warning := 0, error := 1 } ∧
    (RulesRegistry.check_rules inp).registry = [] ∧
    (RulesRegistry.check_rules inp).trace = [] := by
  simp [RulesRegistry.check_rules, h, parseFailureCount, AggState.init,
    SevMap.const, SevMap.set, SevMap.get]

/-- Witness for C4: the concrete parse-failure run. -/
theorem C4_parse_failure_witness :
    parseFailInput.parse_ok = false ∧
    (RulesRegistry.check_rules parseFailInput).state.total_count = 1 ∧
    (RulesRegistry.check_rules parseFailInput).state.exception_counts =
      { info := 0, warning := 0, error := 1 } ∧
    (RulesRegistry.check_rules parseFailInput).registry = [] ∧
    (RulesRegistry.check_rules parseFailInput).trace = [] :=
  ⟨rfl, C4_parse_failure parseFailInput rfl⟩

/-! ## Aggregation invariant (claim C1) -/

theorem sevSet_counts_add (m : SevMap Nat) (sev : Severity) (n : Nat) :
    (m.set sev (m.get sev + n)).info + (m.set sev (m.get sev + n)).warning +
      (m.set sev (m.get sev + n)).error = m.info + m.warning + m.error + n := by
  cases sev <;> simp [SevMap.set, SevMap.get] <;> omega

theorem sevSet_ruleCounts_add (m : SevMap (List (ClassName × Nat))) (sev : Severity)
    (l : List (ClassName × Nat)) (n : Nat)
    (h : sumCounts l = sumCounts (m.get sev) + n) :
    sumCounts (m.set sev l).info + sumCounts (m.set sev l).warning +
      sumCounts (m.set sev l).error =
      sumCounts m.info + sumCounts m.warning + sumCounts m.error + n := by
  cases sev <;> simp [SevMap.set, SevMap.get] at h ⊢ <;> omega

theorem exception_handler_consistent (cls : ClassName) (e : ElectionException)
    (s : AggState) (h : CountsConsistent s) :
    CountsConsistent (RulesRegistry.exception_handler cls e s) := by
  obtain ⟨h1, h2, h3⟩ := h
  unfold RulesRegistry.exception_handler
  cases he : e.severity with
  | none => exact ⟨h1, h2, h3⟩
  | some sev =>
      by_cases hk : (alistGet? (s.exceptions.get sev) cls).isSome
      · simp only [hk, if_true]
        have hkr : (alistGet? (s.exception_rule_counts.get sev) cls).isSome := by
          rw [← h3 sev cls]
          exact hk
        refine ⟨?_, ?_, ?_⟩
        · have hadd := sevSet_counts_add s.exception_counts sev (errorCount e)
          unfold sevCountsTotal at h1 ⊢
          dsimp only
          omega
        · have hmod := sumCounts_alistModify_add
            (s.exception_rule_counts.get sev) cls (errorCount e) hkr
          have hadd := sevSet_ruleCounts_add s.exception_rule_counts sev
            (alistModify (s.exception_rule_counts.get sev) cls
              (fun x => x + errorCount e)) (errorCount e) hmod
          unfold ruleCountsTotal at h2 ⊢
          dsimp only
          omega
        · intro sev' cls'
          dsimp only
          rw [SevMap.get_set, SevMap.get_set]
          by_cases hs' : sev' = sev
          · simp only [hs', if_true]
            rw [isSome_alistGet?_alistModify, isSome_alistGet?_alistModify]
            exact h3 sev cls'
          · simp only [hs', if_false]
            exact h3 sev' cls'
      · dsimp only
        rw [if_neg hk, if_neg hk]
        have hke : (alistGet? (s.exceptions.get sev ++ [(cls, [])]) cls).isSome := by
          rw [isSome_alistGet?_append_single]
          simp
        have hkr : (alistGet? (s.exception_rule_counts.get sev ++ [(cls, 0)]) cls).isSome := by
          rw [isSome_alistGet?_append_single]
          simp
        refine ⟨?_, ?_, ?_⟩
        · have hadd := sevSet_counts_add s.exception_counts sev (errorCount e)
          unfold sevCountsTotal at h1 ⊢
          dsimp only
          omega
        · have hsum : sumCounts (s.exception_rule_counts.get sev ++ [(cls, 0)]) =
              sumCounts (s.exception_rule_counts.get sev) := by
            rw [sumCounts_append]
            simp [sumCounts]
          have hmod := sumCounts_alistModify_add
            (s.exception_rule_counts.get sev ++ [(cls, 0)]) cls (errorCount e) hkr
          have hadd := sevSet_ruleCounts_add s.exception_rule_counts sev
            (alistModify (s.exception_rule_counts.get sev ++ [(cls, 0)]) cls
              (fun x => x + errorCount e)) (errorCount e) (by omega)
          unfold ruleCountsTotal at h2 ⊢
          dsimp only
          omega
        · intro sev' cls'
          dsimp only
          rw [SevMap.get_set, SevMap.get_set]
          by_cases hs' : sev' = sev
          · simp only [hs', if_true]
            rw [isSome_alistGet?_alistModify, isSome_alistGet?_alistModify,
              isSome_alistGet?_append_single, isSome_alistGet?_append_single]
            rw [h3 sev cls']
          · simp only [hs', if_false]
            exact h3 sev' cls'

theorem init_consistent : CountsConsistent AggState.init := by
  refine ⟨rfl, rfl, ?_⟩
  intro sev cls
  cases sev <;> rfl

theorem runTreeRules_consistent (out : RuleInst → Option ElectionException)
    (rules : List RuleInst) (s : AggState) (h : CountsConsistent s) :
    CountsConsistent (runTreeRules out rules s).1 := by
  induction rules generalizing s with
  | nil => exact h
  | cons r rest ih =>
      simp only [runTreeRules]
      cases hr : out r with
      | none => exact ih s h
      | some e => exact ih _ (exception_handler_consistent r.className e s h)

theorem runRulesOnElement_consistent (out : RuleInst → Element → Option ElectionException)
    (element : Element) (rules : List RuleInst) (s : AggState) (h : CountsConsistent s) :
    CountsConsistent (runRulesOnElement out element rules s).1 := by
  induction rules generalizing s with
  | nil => exact h
  | cons r rest ih =>
      simp only [runRulesOnElement]
      cases hr : out r element with
      | none => exact ih s h
      | some e => exact ih _ (exception_handler_consistent r.className e s h)

theorem runWalk_consistent (out : RuleInst → Element → Option ElectionException)
    (reg : Registry) (walk : List Element) (s : AggState) (h : CountsConsistent s) :
    CountsConsistent (runWalk out reg walk s).1 := by
  induction walk generalizing s with
  | nil => exact h
  | cons element rest ih =>
      simp only [runWalk]
      cases hg : get_element_class (some element) with
      | none => exact ih s h
      | some tag =>
          by_cases ht : tag = ""
          · simp only [ht, if_true]
            exact ih s h
          · simp only [ht, if_false]
            cases hl : alistGet? reg tag with
            | none => exact ih s h
            | some rules =>
                exact ih _ (runRulesOnElement_consistent out element rules s h)

/-! ## Claim C1 -/

/-- Counterexample to C1 as stated: after a run ending in a parse failure
the grand total is 1 and equals the sum of per-severity counts, but the
per-(severity, rule-class) counts sum to 0, so the claimed double equality
fails. -/
theorem C1_counterexample :
    ¬((RulesRegistry.check_rules parseFailInput).state.total_count =
        sevCountsTotal (RulesRegistry.check_rules parseFailInput).state ∧
      (RulesRegistry.check_rules parseFailInput).state.total_count =
        ruleCountsTotal (RulesRegistry.check_rules parseFailInput).state) := by
  decide

/-- C1 (amended): after any run of `check_rules` the grand total equals the
sum over severities of the per-severity counts; when both parses succeed it
also equals the sum over all (severity, rule-class) pairs of the
per-(severity, rule-class) counts.  (A parse-failure run increments a
severity count but no per-rule-class count, so only the first equality
survives there.) -/
theorem C1_total_consistency (inp : RunInput) :
    (RulesRegistry.check_rules inp).state.total_count =
      sevCountsTotal (RulesRegistry.check_rules inp).state ∧
    (inp.parse_ok = true →
      (RulesRegistry.check_rules inp).state.total_count =
        ruleCountsTotal (RulesRegistry.check_rules inp).state) := by
  by_cases hp : inp.parse_ok = true
  · have hcc : CountsConsistent (RulesRegistry.check_rules inp).state := by
      unfold RulesRegistry.check_rules
      rw [hp]
      simp only [Bool.true_eq_false, if_false]
      cases hreg : RulesRegistry.register_rules inp.rule_options inp.rule_classes [] with
      | mk reg err =>
          cases err with
          | none =>
              exact runWalk_consistent _ _ _ _
                (runTreeRules_consistent _ _ _ init_consistent)
          | some e => exact init_consistent
    exact ⟨hcc.1, fun _ => hcc.2.1⟩
  · have hp' : inp.parse_ok = false := by
      cases hb : inp.parse_ok
      · rfl
      · exact absurd hb hp
    have hcr : RulesRegistry.check_rules inp =
        { state := parseFailureCount AggState.init, registry := [], trace := [],
          raised := none } := by
      unfold RulesRegistry.check_rules
      rw [hp']
      simp
    constructor
    · rw [hcr]
      decide
    · intro h
      exact absurd h hp

/-- Witness for C1 (amended): a successful run with one Info failure
satisfies the per-(severity, rule-class) sum equality. -/
theorem C1_total_consistency_witness :
    infoOnlyInput.parse_ok = true ∧
    (RulesRegistry.check_rules infoOnlyInput).state.total_count =
      ruleCountsTotal (RulesRegistry.check_rules infoOnlyInput).state :=
  ⟨rfl, (C1_total_consistency infoOnlyInput).2 rfl⟩

/-! ## Dispatch traces (claim C2) -/

theorem runTreeRules_trace (out : RuleInst → Option ElectionException)
    (rules : List RuleInst) (s : AggState) :
    (runTreeRules out rules s).2 =
      rules.map (fun r => (r, (none : Option Element))) := by
  induction rules generalizing s with
  | nil => rfl
  | cons r rest ih =>
      simp only [runTreeRules, List.map_cons]
      rw [ih]

theorem runRulesOnElement_trace (out : RuleInst → Element → Option ElectionException)
    (element : Element) (rules : List RuleInst) (s : AggState) :
    (runRulesOnElement out element rules s).2 =
      rules.map (fun r => (r, some element)) := by
  induction rules generalizing s with
  | nil => rfl
  | cons r rest ih =>
      simp only [runRulesOnElement, List.map_cons]
      rw [ih]

theorem runWalk_trace (out : RuleInst → Element → Option ElectionException)
    (reg : Registry) (walk : List Element) (s : AggState) :
    (runWalk out reg walk s).2 =
      walk.flatMap (fun element => elementPlan reg element) := by
  induction walk generalizing s with
  | nil => rfl
  | cons element rest ih =>
      simp only [runWalk, List.flatMap_cons]
      rw [ih]
      congr 1
      unfold elementPlan
      cases hg : get_element_class (some element) with
      | none => rfl
      | some tag =>
          by_cases ht : tag = ""
          · simp [ht]
          · simp only [ht, if_false]
            cases hl : alistGet? reg tag with
            | none => rfl
            | some rules => rw [runRulesOnElement_trace]

/-! ## Claim C2 -/

/-- C2: in a run whose parses both succeed and whose registration raises
nothing, the invocation sequence is exactly the dispatch plan — a function
of the dispatch table and the traversal alone, independent of every rule's
outcome — so each whole-tree rule under the tree key is invoked once and
each rule registered under an element's resolved key is invoked on that
element, no matter which earlier rules failed. -/
theorem C2_failures_never_stop_dispatch (inp : RunInput)
    (hp : inp.parse_ok = true)
    (hr : (RulesRegistry.check_rules inp).raised = none) :
    (RulesRegistry.check_rules inp).trace =
      dispatchPlan (RulesRegistry.check_rules inp).registry inp.walk ∧
    (∀ r ∈ (alistGet? (RulesRegistry.check_rules inp).registry "tree").getD [],
      (r, (none : Option Element)) ∈ (RulesRegistry.check_rules inp).trace) ∧
    (∀ element ∈ inp.walk, ∀ tag : String,
      get_element_class (some element) = some tag → tag ≠ "" →
      ∀ rules : List RuleInst,
        alistGet? (RulesRegistry.check_rules inp).registry tag = some rules →
        ∀ r ∈ rules, (r, some element) ∈ (RulesRegistry.check_rules inp).trace) := by
  have hplan : (RulesRegistry.check_rules inp).trace =
      dispatchPlan (RulesRegistry.check_rules inp).registry inp.walk := by
    unfold RulesRegistry.check_rules at hr ⊢
    rw [hp] at hr ⊢
    simp only [Bool.true_eq_false, if_false] at hr ⊢
    cases hreg : RulesRegistry.register_rules inp.rule_options inp.rule_classes [] with
    | mk reg err =>
        rw [hreg] at hr
        cases err with
        | none =>
            simp only [dispatchPlan]
            rw [runTreeRules_trace, runWalk_trace]
        | some e => simp at hr
  refine ⟨hplan, ?_, ?_⟩
  · intro r hrm
    rw [hplan]
    unfold dispatchPlan
    apply List.mem_append_left
    exact List.mem_map_of_mem _ hrm
  · intro element hel tag htag hne rules hrules r hrm
    rw [hplan]
    unfold dispatchPlan
    apply List.mem_append_right
    rw [List.mem_flatMap]
    refine ⟨element, hel, ?_⟩
    unfold elementPlan
    rw [htag]
    simp only [hne, if_false]
    rw [hrules]
    exact List.mem_map_of_mem _ hrm

/-- Witness for C2: the whole-tree rule raises an Error, yet the Person
rule is still invoked on the Person element. -/
theorem C2_failures_never_stop_dispatch_witness :
    treeFailInput.parse_ok = true ∧
    (RulesRegistry.check_rules treeFailInput).raised = none ∧
    (personRuleClass.mkInstance, some personElement) ∈
      (RulesRegistry.check_rules treeFailInput).trace :=
  ⟨rfl, rfl,
   (C2_failures_never_stop_dispatch treeFailInput rfl rfl).2.2 personElement
     (by decide) "Person" rfl (by decide) [personRuleClass.mkInstance] rfl
     personRuleClass.mkInstance (by decide)⟩

/-! ## Claim C8 -/

theorem register_rules_append_fail
    (opts : List (ClassName × List RuleOption)) (cs1 : List RuleClass)
    (c : RuleClass) (cs2 : List RuleClass) (reg0 : Registry)
    (e : ElectionException)
    (h1 : (RulesRegistry.register_rules opts cs1 reg0).2 = none)
    (h2 : (configureInstance opts c).2 = some e) :
    RulesRegistry.register_rules opts (cs1 ++ c :: cs2) reg0 =
      ((RulesRegistry.register_rules opts cs1 reg0).1, some e) := by
  induction cs1 generalizing reg0 with
  | nil =>
      simp only [List.nil_append, RulesRegistry.register_rules]
      cases hc : configureInstance opts c with
      | mk inst err =>
          rw [hc] at h2
          simp only at h2
          subst h2
          rfl
  | cons c0 rest ih =>
      simp only [List.cons_append, RulesRegistry.register_rules] at h1 ⊢
      cases hc0 : configureInstance opts c0 with
      | mk inst err =>
          rw [hc0] at h1
          cases err with
          | none => exact ih _ h1
          | some e0 => simp at h1

/-- Counterexample to C8 as stated: with `BadOptionRule` (whose option names
a nonexistent attribute) listed before `PersonRule`, the run's registration
raises, and `PersonRule` is never inserted into the dispatch table — the
table stays empty — so the other configured rule classes are not
registered. -/
theorem C8_counterexample :
    (RulesRegistry.check_rules configFailInput).raised = some invalidAttributeExc ∧
    (RulesRegistry.check_rules configFailInput).registry = [] ∧
    alistGet? (RulesRegistry.check_rules configFailInput).registry "Person" = none ∧
    (RulesRegistry.check_rules configFailInput).trace = [] := by
  decide

/-- C8 (amended): a configuration failure while registering one rule aborts
the rest of registration and the whole run — the exception escapes
`check_rules` before any check is invoked.  The failing rule is
instantiated but never set up or inserted into the dispatch table, every
rule class after it is never processed, and the rules listed before the
failing one stay registered. -/
theorem C8_config_failure_aborts_run (inp : RunInput)
    (cs1 cs2 : List RuleClass) (c : RuleClass) (e : ElectionException)
    (hp : inp.parse_ok = true)
    (hcs : inp.rule_classes = cs1 ++ c :: cs2)
    (h1 : (RulesRegistry.register_rules inp.rule_options cs1 []).2 = none)
    (h2 : (configureInstance inp.rule_options c).2 = some e) :
    (RulesRegistry.check_rules inp).raised = some e ∧
    (RulesRegistry.check_rules inp).registry =
      (RulesRegistry.register_rules inp.rule_options cs1 []).1 ∧
    (RulesRegistry.check_rules inp).trace = [] ∧
    (RulesRegistry.check_rules inp).state = AggState.init := by
  have hreg := register_rules_append_fail inp.rule_options cs1 c cs2 [] e h1 h2
  unfold RulesRegistry.check_rules
  rw [hp]
  simp only [Bool.true_eq_false, if_false]
  rw [hcs, hreg]
  exact ⟨rfl, rfl, rfl, rfl⟩

/-- Witness for C8 (amended): with no rules before the failing one, the
exception escapes, nothing is registered and nothing runs. -/
theorem C8_config_failure_aborts_run_witness :
    configFailInput.parse_ok = true ∧
    configFailInput.rule_classes = [] ++ badOptionRuleClass :: [personRuleClass] ∧
    (RulesRegistry.register_rules configFailInput.rule_options [] []).2 = none ∧
    (configureInstance configFailInput.rule_options badOptionRuleClass).2 =
      some invalidAttributeExc ∧
    (RulesRegistry.check_rules configFailInput).raised = some invalidAttributeExc ∧
    (RulesRegistry.check_rules configFailInput).trace = [] :=
  ⟨rfl, rfl, rfl, by decide,
   (C8_config_failure_aborts_run configFailInput [] [personRuleClass]
     badOptionRuleClass invalidAttributeExc rfl rfl rfl (by decide)).1,
   (C8_config_failure_aborts_run configFailInput [] [personRuleClass]
     badOptionRuleClass invalidAttributeExc rfl rfl rfl (by decide)).2.2.1⟩

/-! ## Claim C5 -/

/-- Counterexample to C5 as stated: a run leaves one Info-severity failure
(grand total 1); printing with the threshold at index 2 (Error only) prints
nothing at all — in particular not the clean-run confirmation message. -/
theorem C5_counterexample :
    (RulesRegistry.check_rules infoOnlyInput).state.total_count ≠ 0 ∧
    RulesRegistry.print_exceptions (RulesRegistry.check_rules infoOnlyInput).state
      (some 2) false = [] ∧
    cleanRunMessage ∉
      RulesRegistry.print_exceptions (RulesRegistry.check_rules infoOnlyInput).state
        (some 2) false := by
  decide

/-- C5 (amended): with a nonzero grand total and every severity at or above
the normalized threshold counting zero, `print_exceptions` prints nothing
at all; the clean-run confirmation message is printed only when the grand
total itself is zero. -/
theorem C5_below_threshold_prints_nothing (s : AggState) (severity : Option Nat)
    (verbose : Bool) (h1 : s.total_count ≠ 0)
    (h2 : ∀ t ∈ SEVERITIES.drop (printSeverityIndex severity),
      s.exception_counts.get t = 0) :
    RulesRegistry.print_exceptions s severity verbose = [] := by
  unfold RulesRegistry.print_exceptions
  rw [if_neg h1]
  apply flatMap_eq_nil_of_forall
  intro t ht
  rw [List.mem_reverse] at ht
  simp [h2 t ht]

/-- Witness for C5 (amended): the Info-only run printed with threshold 2
satisfies the hypotheses and prints nothing. -/
theorem C5_below_threshold_prints_nothing_witness :
    (RulesRegistry.check_rules infoOnlyInput).state.total_count ≠ 0 ∧
    (∀ t ∈ SEVERITIES.drop (printSeverityIndex (some 2)),
      (RulesRegistry.check_rules infoOnlyInput).state.exception_counts.get t = 0) ∧
    RulesRegistry.print_exceptions (RulesRegistry.check_rules infoOnlyInput).state
      (some 2) true = [] :=
  ⟨by decide, by decide,
   C5_below_threshold_prints_nothing (RulesRegistry.check_rules infoOnlyInput).state
     (some 2) true (by decide) (by decide)⟩

end CdfValidator
